import Mathlib

/-!
# BTVM: the binary-template virtual machine (btvm.cpp)

A shallow embedding of the orchestrator class `BTVM` of `src/btvm/btvm.cpp`:
the color palette, the built-in handlers (`vmFSeek`, `readScalar`,
`vmReadString`, `vmSetForeColor`, `vmSetBackColor`, `vmPrintf`, `vmWarning`)
and the entry builder (`createEntry`, `createTemplate`).

The class extends a VM base (`vm/vm.h`) and talks to a stream reader
(`btvmio.h`); neither header is part of these sources. The evaluator
`VM::interpret`, `VM::sizeOf`, the stream's `read`/`readString` and
`VMFunctions::format_string` are taken as parameters (structure `Env`), so
that every theorem holds for all of them. The small pieces the handlers depend
on directly (error reporting, `seek`, the no-seek guard, the value predicates)
are modelled from the specification and marked as such.

Conventions: a `VMValuePtr` is `Option VMValue` (`none` is the null pointer);
a handler returns `Option (VMValuePtr × BTVM)` where the outer `none` stands for
undefined behaviour of the C++ code (dereferencing a null pointer, calling
`front()` on an empty vector).
-/

namespace BTVMModel

/-! ## AST nodes (only what btvm.cpp inspects) -/

/-- Modelled from the spec: the AST node classes live outside these sources
(§6 "AST contract": each node identifies its kind and exposes typed child
slots). Only the kinds btvm.cpp discriminates on are kept. -/
inductive Node where
  | NIdentifier (value : String)
  | NInteger (value : Int)
  | NString (value : String)
  | NType (name : String)
  | NStruct (name : String)
  | NUnion (name : String)
  deriving DecidableEq, Repr

/-- The discriminator `node_is(n, NIdentifier)`. -/
def Node.isNIdentifier : Node → Bool
  | .NIdentifier _ => true
  | _ => false

/-- The discriminator `node_is(n, NStruct)` on a possibly null node pointer. -/
def node_is_NStruct : Option Node → Bool
  | some (.NStruct _) => true
  | _ => false

/-- The call-site node handed to a built-in: callee name and ordered arguments. -/
structure NCall where
  name : String
  arguments : List Node
  deriving Repr

/-! ## Values -/

/-- Modelled from the spec: the value variants of §3 (Null, Bool, signed and
unsigned integers of width 8..64, floats, String, Array, Composite, Enum). -/
inductive VMValueType where
  | Null | Bool
  | u8 | u16 | u32 | u64
  | s8 | s16 | s32 | s64
  | Float | Double
  | String | Array | Enum | Union | Struct
  deriving DecidableEq, Repr

/-- Modelled from the spec: the value class `VMValue` lives outside these
sources. The fields are the ones btvm.cpp reads: the type tag, the declared
type node (`value_typedef`), `value_offset`, the 64-bit scalar storage
(`ui_value`), the string bytes and the owned children (`m_value`). -/
inductive VMValue where
  | mk (value_type : VMValueType) (value_typedef : Option Node) (value_offset : Nat)
       (ui_value : Nat) (s_value : List Nat) (m_value : List VMValue)
  deriving Repr

abbrev VMValuePtr := Option VMValue

namespace VMValue

def value_type : VMValue → VMValueType
  | mk t _ _ _ _ _ => t

def value_typedef : VMValue → Option Node
  | mk _ d _ _ _ _ => d

def value_offset : VMValue → Nat
  | mk _ _ o _ _ _ => o

def ui_value : VMValue → Nat
  | mk _ _ _ u _ _ => u

def s_value : VMValue → List Nat
  | mk _ _ _ _ b _ => b

def m_value : VMValue → List VMValue
  | mk _ _ _ _ _ m => m

/-- Modelled from the spec: `is_scalar()`; the scalar variants are Bool, the
integers and the floats. -/
def is_scalar (v : VMValue) : Bool :=
  match v.value_type with
  | .Bool | .u8 | .u16 | .u32 | .u64 | .s8 | .s16 | .s32 | .s64 | .Float | .Double => true
  | _ => false

/-- Modelled from the spec: `is_array()`. -/
def is_array (v : VMValue) : Bool :=
  match v.value_type with
  | .Array => true
  | _ => false

/-- Modelled from the spec: `is_string()`. -/
def is_string (v : VMValue) : Bool :=
  match v.value_type with
  | .String => true
  | _ => false

/-- Modelled from the spec: the read `*value_ref<uint64_t>()` of the value class,
the scalar storage taken as an unsigned 64-bit number. -/
def value_ref_u64 (v : VMValue) : Nat := v.ui_value % 2 ^ 64

/-- Modelled from the spec: the read `*value_ref<int32_t>()` of the value class,
the low 32 bits of the storage in two's complement. -/
def value_ref_i32 (v : VMValue) : Int :=
  let w : Nat := v.ui_value % 2 ^ 32
  if w < 2 ^ 31 then (w : Int) else (w : Int) - 2 ^ 32

/-- Modelled from the spec: `VMValue::allocate_literal(int64_t)`, a fresh signed
64-bit literal; the storage holds the two's complement image. -/
def allocate_literal (x : Int) : VMValue :=
  mk .s64 none 0 (x % 2 ^ 64).toNat [] []

/-- Modelled from the spec: `VMValue::allocate(bits, issigned, false)`, a fresh
zeroed integer of the given width and signedness. -/
def allocate (bits : Nat) (issigned : Bool) : VMValue :=
  let t : VMValueType :=
    match bits, issigned with
    | 8, true => .s8 | 8, false => .u8
    | 16, true => .s16 | 16, false => .u16
    | 32, true => .s32 | 32, false => .u32
    | _, true => .s64 | _, false => .u64
  mk t none 0 0 [] []

/-- Modelled from the spec: `VMValue::allocate(VMValueType::String)`, a fresh empty string. -/
def allocate_string : VMValue := mk .String none 0 0 [] []

/-- The signed reading of a 64-bit literal's storage. -/
def toInt64 (v : VMValue) : Int :=
  let w : Nat := v.ui_value % 2 ^ 64
  if w < 2 ^ 63 then (w : Int) else (w : Int) - 2 ^ 64

end VMValue

/-! ## The stream reader -/

/-- Modelled from the spec: the byte orders of the stream reader (§4.C). -/
inductive Endianness where
  | LittleEndian | BigEndian
  deriving DecidableEq, Repr

/-- Modelled from the spec: the stream reader `BTVMIO` lives outside these
sources (§4.C): a cursor over bytes with an endianness and an eof-sticky flag. -/
structure BTVMIO where
  data : List Nat
  cursor : Nat
  endian : Endianness
  eofFlag : Bool
  deriving DecidableEq, Repr

namespace BTVMIO

/-- Modelled from the spec: `size()`. -/
def size (io : BTVMIO) : Nat := io.data.length

/-- Modelled from the spec: `offset()`. -/
def offset (io : BTVMIO) : Nat := io.cursor

/-- Modelled from the spec: `endianness()`. -/
def endianness (io : BTVMIO) : Endianness := io.endian

/-- Modelled from the spec: `seek(u64)`, "absolute positioning; seeking past
`size()` is clamped and sets an eof-sticky flag". -/
def seek (io : BTVMIO) (pos : Nat) : BTVMIO :=
  if pos > io.size then { io with cursor := io.size, eofFlag := true }
  else { io with cursor := pos }

/-- Modelled from the spec: release of the scoped no-seek guard, which
"restores the offset to its value at acquisition time". -/
def restore (io : BTVMIO) (saved : Nat) : BTVMIO :=
  { io with cursor := saved }

end BTVMIO

/-! ## Entries -/

/-- Modelled from the spec: the span `(offset, size)` of an entry (§3). -/
structure BTLocation where
  offset : Nat
  size : Nat
  deriving DecidableEq, Repr

/-- Modelled from the spec: the output node `BTEntry` (format/btentry.h, not
part of these sources). `id` stands for the address returned by
`make_shared<BTEntry>`; `parent` is the weak back-reference, held as the
address of the parent entry (`none` for NULL); `children` are owned. -/
inductive BTEntry where
  | mk (id : Nat) (value : VMValue) (endianness : Endianness) (location : BTLocation)
       (parent : Option Nat) (children : List BTEntry)
  deriving Repr

abbrev BTEntryList := List BTEntry

namespace BTEntry

def id : BTEntry → Nat
  | mk i _ _ _ _ _ => i

def value : BTEntry → VMValue
  | mk _ v _ _ _ _ => v

def endianness : BTEntry → Endianness
  | mk _ _ e _ _ _ => e

def location : BTEntry → BTLocation
  | mk _ _ _ l _ _ => l

def parent : BTEntry → Option Nat
  | mk _ _ _ _ p _ => p

def children : BTEntry → List BTEntry
  | mk _ _ _ _ _ c => c

end BTEntry

/-! ## Interpreter state -/

/-- Modelled from the spec: the status of the evaluator (§4.D), a member of the
VM base. -/
inductive VMState where
  | NoState | Running | Error
  deriving DecidableEq, Repr

/-- Modelled from the spec: the failures the handlers of btvm.cpp raise (§7):
a plain error message, a wrong argument count, a wrong kind of operand. -/
inductive VMError where
  | general (msg : String)
  | argument (callee : String) (given expected : Nat)
  | type (expected : String)
  deriving DecidableEq, Repr

abbrev ColorMap := List (String × Nat)

/-- The members of `BTVM` (and of its VM base) that btvm.cpp reads or writes.
`printed` records the calls of the `print` hook, `created` the calls of the
`entryCreated` hook, `errors` the failures raised, `nextEntry` the next fresh
entry address. -/
structure BTVM where
  state : VMState
  allocations : List VMValue
  _colors : ColorMap
  _fgcolor : Nat
  _bgcolor : Nat
  _btvmio : BTVMIO
  printed : List String
  errors : List VMError
  created : List BTEntry
  nextEntry : Nat

/-- The parts of the VM base and of the stream reader that are called through
but not defined in btvm.cpp. -/
structure Env where
  /-- The evaluator `VM::interpret(Node*)`. -/
  interpret : Node → BTVM → VMValuePtr × BTVM
  /-- The size query `VM::sizeOf(const VMValuePtr&)`. -/
  sizeOf : VMValue → Nat
  /-- The typed read `BTVMIO::read(value, bytes)`. -/
  read : VMValue → Nat → BTVMIO → VMValue × BTVMIO
  /-- The string read `BTVMIO::readString(value, maxlen)`. -/
  readString : VMValue → Int → BTVMIO → VMValue × BTVMIO
  /-- The formatter `VMFunctions::format_string(format, args)`. -/
  format_string : VMValuePtr → List VMValuePtr → String
  /-- The constant `ColorInvalid`. -/
  ColorInvalid : Nat

/-! ## Error reporting, printing and the palette -/

namespace BTVM

/-- Modelled from the spec: `VM::error(msg)` (§7: "any error flips the
interpreter to `Error` state and yields a null value"). -/
def error (self : BTVM) (msg : String) : VMValuePtr × BTVM :=
  (none, { self with state := .Error, errors := self.errors ++ [.general msg] })

/-- Modelled from the spec: `VM::argumentError(ncall, expected)`, the
wrong-argument-count failure (§7 *ArityError*). -/
def argumentError (self : BTVM) (ncall : NCall) (expected : Nat) : VMValuePtr × BTVM :=
  (none, { self with state := .Error,
                     errors := self.errors ++ [.argument ncall.name ncall.arguments.length expected] })

/-- Modelled from the spec: `VM::typeError(offender, expected)`, the
wrong-kind failure (§7 *TypeError*). -/
def typeError (self : BTVM) (expected : String) : VMValuePtr × BTVM :=
  (none, { self with state := .Error, errors := self.errors ++ [.type expected] })

/-- The hook `BTVM::print`. -/
def print (self : BTVM) (s : String) : BTVM :=
  { self with printed := self.printed ++ [s] }

/-- The hook `BTVM::entryCreated`, which does nothing but is observable by a host. -/
def entryCreated (self : BTVM) (btentry : BTEntry) : BTVM :=
  { self with created := self.created ++ [btentry] }

end BTVM

/-- The assignment `map[key] = value` of `std::unordered_map`. -/
def ColorMap.assign (m : ColorMap) (key : String) (value : Nat) : ColorMap :=
  if m.any (fun p => p.1 == key) then m.map (fun p => if p.1 == key then (key, value) else p)
  else m ++ [(key, value)]

/-- The member function `BTVM::initColors`. -/
def initColors (m : ColorMap) : ColorMap :=
  let m := m.assign "cBlack" 0x00000000
  let m := m.assign "cRed" 0x000000FF
  let m := m.assign "cDkRed" 0x00000080
  let m := m.assign "cLtRed" 0x008080FF
  let m := m.assign "cGreen" 0x0000FF00
  let m := m.assign "cDkGreen" 0x00008000
  let m := m.assign "cLtGreen" 0x0080FF80
  let m := m.assign "cBlue" 0x00FF0000
  let m := m.assign "cDkBlue" 0x00800000
  let m := m.assign "cLtBlue" 0x00FF8080
  let m := m.assign "cPurple" 0x00FF00FF
  let m := m.assign "cDkPurple" 0x00800080
  let m := m.assign "cLtPurple" 0x00FFE0FF
  let m := m.assign "cAqua" 0x00FFFF00
  let m := m.assign "cDkAqua" 0x00808000
  let m := m.assign "cLtAqua" 0x00FFFFE0
  let m := m.assign "cYellow" 0x0000FFFF
  let m := m.assign "cDkYellow" 0x00008080
  let m := m.assign "cLtYellow" 0x0080FFFF
  let m := m.assign "cDkGray" 0x00404040
  let m := m.assign "cGray" 0x00808080
  let m := m.assign "cSilver" 0x00C0C0C0
  let m := m.assign "cLtGray" 0x00E0E0E0
  let m := m.assign "cWhite" 0x00FFFFFF
  let m := m.assign "cNone" 0xFFFFFFFF
  m

/-- The constructor `BTVM::BTVM(btvmio)`: both current colors start at
`ColorInvalid` and the palette is filled by `initColors`. -/
def BTVM.new (env : Env) (btvmio : BTVMIO) : BTVM :=
  { state := .NoState, allocations := [], _colors := initColors [],
    _fgcolor := env.ColorInvalid, _bgcolor := env.ColorInvalid, _btvmio := btvmio,
    printed := [], errors := [], created := [], nextEntry := 0 }

/-- The member function `BTVM::color`. -/
def BTVM.color (env : Env) (self : BTVM) (color : String) : Nat :=
  match self._colors.lookup color with
  | none => env.ColorInvalid
  | some v => v

/-- The member function `BTVM::currentFgColor`. -/
def BTVM.currentFgColor (self : BTVM) : Nat := self._fgcolor

/-- The member function `BTVM::currentBgColor`. -/
def BTVM.currentBgColor (self : BTVM) : Nat := self._bgcolor

/-- The member function `BTVM::currentOffset`. -/
def BTVM.currentOffset (self : BTVM) : Nat := self._btvmio.offset

/-! ## The entry builder -/

mutual
/-- The member function `BTVM::createEntry`. -/
def createEntry (env : Env) (vmvalue : VMValue) (btparent : Option Nat) (self : BTVM) :
    BTEntry × BTVM :=
  match vmvalue with
  | .mk t d o u b m =>
    let v := VMValue.mk t d o u b m
    let addr := self.nextEntry
    let endianness := self._btvmio.endianness
    let location : BTLocation := ⟨v.value_offset, env.sizeOf v⟩
    let self := { self with nextEntry := self.nextEntry + 1 }
    let (children, self) :=
      if v.is_array || node_is_NStruct v.value_typedef then
        createChildren env m (some addr) self
      else ([], self)
    let btentry := BTEntry.mk addr v endianness location btparent children
    (btentry, self.entryCreated btentry)
/-- The loop of `createEntry` over `vmvalue->m_value`. -/
def createChildren (env : Env) (vs : List VMValue) (btparent : Option Nat) (self : BTVM) :
    List BTEntry × BTVM :=
  match vs with
  | [] => ([], self)
  | v :: rest =>
    let (e, self) := createEntry env v btparent self
    let (es, self) := createChildren env rest btparent self
    (e :: es, self)
end

/-- The member function `BTVM::createTemplate`. -/
def createTemplate (env : Env) (self : BTVM) : BTEntryList × BTVM :=
  if self.state = VMState.NoState then
    createChildren env self.allocations none self
  else
    ([], { self with allocations := [] })

/-! ## Built-in handlers -/

/-- Modelled from the spec: the macro `IO_NoSeek(io)`, the scoped no-seek guard
of §4.C: the cursor at acquisition is saved and "on all exit paths" the offset
is restored to it. `body` is the rest of the enclosing C++ scope. -/
def IO_NoSeek (self : BTVM) (body : BTVM → Option (VMValuePtr × BTVM)) :
    Option (VMValuePtr × BTVM) :=
  let saved := self._btvmio.offset
  (body self).map fun r => (r.1, { r.2 with _btvmio := r.2._btvmio.restore saved })

/-- The cast `static_cast<NIdentifier*>(node)->value`, defined on identifier nodes only. -/
def Node.asNIdentifier : Node → Option String
  | .NIdentifier value => some value
  | _ => none

/-- The handler `BTVM::vmSetBackColor`. -/
def vmSetBackColor (env : Env) (self : BTVM) (ncall : NCall) : Option (VMValuePtr × BTVM) :=
  if ncall.arguments.length != 1 then some (self.argumentError ncall 1)
  else do
    let arg0 ← ncall.arguments[0]?
    if !arg0.isNIdentifier then some (self.typeError "NIdentifier")
    else do
      let value ← arg0.asNIdentifier
      some (none, { self with _bgcolor := self.color env value })

/-- The handler `BTVM::vmSetForeColor`. -/
def vmSetForeColor (env : Env) (self : BTVM) (ncall : NCall) : Option (VMValuePtr × BTVM) :=
  if ncall.arguments.length != 1 then some (self.argumentError ncall 1)
  else do
    let arg0 ← ncall.arguments[0]?
    if !arg0.isNIdentifier then some (self.typeError "NIdentifier")
    else do
      let value ← arg0.asNIdentifier
      some (none, { self with _fgcolor := self.color env value })

/-- The handler `BTVM::vmFSeek`. -/
def vmFSeek (env : Env) (self : BTVM) (ncall : NCall) : Option (VMValuePtr × BTVM) :=
  if ncall.arguments.length != 1 then some (self.argumentError ncall 1)
  else do
    let front ← ncall.arguments.head?
    let r := env.interpret front self
    let vmvalue ← r.1
    let self := r.2
    if !vmvalue.is_scalar then some (self.typeError "scalar")
    else
      let offset := vmvalue.value_ref_u64
      if offset >= self._btvmio.size then
        some (some (VMValue.allocate_literal (-1)), self)
      else
        some (some (VMValue.allocate_literal 0), { self with _btvmio := self._btvmio.seek offset })

/-- The tail of `readScalar`: allocate the target and read it at the cursor. -/
def readScalarValue (env : Env) (bits : Nat) (issigned : Bool) (self : BTVM) :
    Option (VMValuePtr × BTVM) :=
  let vmvalue := VMValue.allocate bits issigned
  let r := env.read vmvalue (env.sizeOf vmvalue) self._btvmio
  some (some r.1, { self with _btvmio := r.2 })

/-- The member function `BTVM::readScalar`. -/
def readScalar (env : Env) (self : BTVM) (ncall : NCall) (bits : Nat) (issigned : Bool) :
    Option (VMValuePtr × BTVM) :=
  if ncall.arguments.length > 1 then
    some (self.error ("Expected 0 or 1 arguments, " ++ toString ncall.arguments.length ++ " given"))
  else
    IO_NoSeek self fun self =>
      if ncall.arguments.length == 1 then do
        let front ← ncall.arguments.head?
        let r := env.interpret front self
        let pos ← r.1
        let self := r.2
        if !pos.is_scalar then some (self.typeError "scalar")
        else
          readScalarValue env bits issigned { self with _btvmio := self._btvmio.seek pos.ui_value }
      else
        readScalarValue env bits issigned self

def vmReadInt (env : Env) (self : BTVM) (ncall : NCall) := readScalar env self ncall 32 true
def vmReadInt64 (env : Env) (self : BTVM) (ncall : NCall) := readScalar env self ncall 64 true
def vmReadQuad (env : Env) (self : BTVM) (ncall : NCall) := vmReadInt64 env self ncall
def vmReadShort (env : Env) (self : BTVM) (ncall : NCall) := readScalar env self ncall 16 true
def vmReadUInt (env : Env) (self : BTVM) (ncall : NCall) := readScalar env self ncall 32 false
def vmReadUInt64 (env : Env) (self : BTVM) (ncall : NCall) := readScalar env self ncall 64 false
def vmReadUQuad (env : Env) (self : BTVM) (ncall : NCall) := vmReadUInt64 env self ncall
def vmReadUShort (env : Env) (self : BTVM) (ncall : NCall) := readScalar env self ncall 16 false

/-- The tail of `vmReadString`: under the no-seek guard, seek to `vmpos` and
read a string with the given `maxlen`. -/
def readStringAt (env : Env) (self : BTVM) (vmpos : VMValue) (maxlen : Int) :
    Option (VMValuePtr × BTVM) :=
  IO_NoSeek self fun self =>
    let vmvalue := VMValue.allocate_string
    let r := env.readString vmvalue maxlen (self._btvmio.seek vmpos.ui_value)
    some (some r.1, { self with _btvmio := r.2 })

/-- The handler `BTVM::vmReadString`. -/
def vmReadString (env : Env) (self : BTVM) (ncall : NCall) : Option (VMValuePtr × BTVM) :=
  if ncall.arguments.length < 1 || ncall.arguments.length > 2 then
    some (self.error ("Expected 1 or 2 arguments, " ++ toString ncall.arguments.length ++ " given"))
  else do
    let arg0 ← ncall.arguments[0]?
    let r := env.interpret arg0 self
    let vmpos ← r.1
    let self := r.2
    if !vmpos.is_scalar then some (self.typeError "scalar")
    else
      if ncall.arguments.length == 2 then do
        let arg1 ← ncall.arguments[1]?
        let r := env.interpret arg1 self
        let vmmaxlen ← r.1
        let self := r.2
        if vmmaxlen.is_scalar then some (self.typeError "scalar")
        else readStringAt env self vmpos vmmaxlen.value_ref_i32
      else
        readStringAt env self vmpos (-1)

/-- The loop of `vmPrintf` over the arguments after the format. -/
def interpretAll (env : Env) : List Node → BTVM → List VMValuePtr × BTVM
  | [], self => ([], self)
  | n :: rest, self =>
    let r := env.interpret n self
    let rs := interpretAll env rest r.2
    (r.1 :: rs.1, rs.2)

/-- The handler `BTVM::vmPrintf`. The first statement takes
`ncall->arguments.front()`, which is undefined on an empty argument vector. -/
def vmPrintf (env : Env) (self : BTVM) (ncall : NCall) : Option (VMValuePtr × BTVM) := do
  let front ← ncall.arguments.head?
  let r := env.interpret front self
  let format := r.1
  let self := r.2
  let rs := if ncall.arguments.length > 1 then interpretAll env (ncall.arguments.drop 1) self
            else ([], self)
  some (none, rs.2.print (env.format_string format rs.1))

/-- The handler `BTVM::vmWarning`. -/
def vmWarning (env : Env) (self : BTVM) (ncall : NCall) : Option (VMValuePtr × BTVM) :=
  vmPrintf env (self.print "WARNING: ") ncall

/-! ## A concrete environment

The theorems below hold for every `Env`. To run the handlers on concrete calls
the missing collaborators are instantiated from the specification. -/

/-- The bytes `bs` as a number in the given byte order. -/
def decodeBytes : Endianness → List Nat → Nat
  | .LittleEndian, bs => bs.foldr (fun b acc => b % 256 + 256 * acc) 0
  | .BigEndian, bs => bs.foldl (fun acc b => 256 * acc + b % 256) 0

/-- Modelled from the spec: `BTVMIO::read` (§4.C): "reads exactly `byte-count`
bytes at the current offset, interprets them per the target Value's type and
the current endianness, advances the cursor". A short read leaves the target
untouched and raises the eof flag. -/
def specRead (into : VMValue) (count : Nat) (io : BTVMIO) : VMValue × BTVMIO :=
  if io.cursor + count ≤ io.size then
    let bytes := (io.data.drop io.cursor).take count
    (VMValue.mk into.value_type into.value_typedef io.cursor (decodeBytes io.endian bytes)
      into.s_value into.m_value,
     { io with cursor := io.cursor + count })
  else (into, { io with eofFlag := true })

/-- Modelled from the spec: `BTVMIO::readString` (§4.C): "if `max-len < 0`, reads
until NUL; otherwise reads up to `max-len` bytes, stopping at NUL". -/
def specReadString (into : VMValue) (maxlen : Int) (io : BTVMIO) : VMValue × BTVMIO :=
  let avail := io.data.drop io.cursor
  let window := if maxlen < 0 then avail else avail.take maxlen.toNat
  let bytes := window.takeWhile (fun b => b != 0)
  (VMValue.mk into.value_type into.value_typedef io.cursor into.ui_value bytes into.m_value,
   { io with cursor := io.cursor + bytes.length })

mutual
/-- Modelled from the spec: `VM::sizeOf` (§3 invariant 3): a primitive has the
size of its width, a string its byte count, a union the size of its largest
member, an array or struct the sum of its children. -/
def specSizeOf : VMValue → Nat
  | .mk t _ _ _ b m =>
    match t with
    | .Null => 0
    | .Bool | .u8 | .s8 => 1
    | .u16 | .s16 => 2
    | .u32 | .s32 | .Float | .Enum => 4
    | .u64 | .s64 | .Double => 8
    | .String => b.length
    | .Union => specSizeMax m
    | .Array | .Struct => specSizeSum m
/-- The sum of the sizes of a child sequence. -/
def specSizeSum : List VMValue → Nat
  | [] => 0
  | v :: rest => specSizeOf v + specSizeSum rest
/-- The largest size in a child sequence. -/
def specSizeMax : List VMValue → Nat
  | [] => 0
  | v :: rest => max (specSizeOf v) (specSizeMax rest)
end

/-- Modelled from the spec: the fragment of `VM::interpret` for literal nodes
(§4.D: "Literals yield newly allocated scalars/strings"); every other node is
reported as an error, which yields a null value. -/
def specInterpret (node : Node) (self : BTVM) : VMValuePtr × BTVM :=
  match node with
  | .NInteger value => (some (VMValue.allocate_literal value), self)
  | .NString value =>
    (some (VMValue.mk .String none 0 0 (value.toList.map Char.toNat) []), self)
  | _ => self.error "not a literal"

/-- Modelled from the spec: a stand-in for `VMFunctions::format_string`, which
renders the format text only. -/
def specFormat (format : VMValuePtr) (_args : List VMValuePtr) : String :=
  match format with
  | some v => String.mk (v.s_value.map Char.ofNat)
  | none => ""

/-- Modelled from the spec: the collaborators of btvm.cpp as §4 describes them;
the `Invalid` color sentinel is `0xFFFFFFFF` (§4.D). -/
def specEnv : Env :=
  { interpret := specInterpret, sizeOf := specSizeOf, read := specRead,
    readString := specReadString, format_string := specFormat, ColorInvalid := 0xFFFFFFFF }

/-- A constructed interpreter over the given bytes, little-endian, cursor at 0. -/
def vmOver (bytes : List Nat) : BTVM :=
  BTVM.new specEnv { data := bytes, cursor := 0, endian := .LittleEndian, eofFlag := false }

/-- The eight scalar-read built-ins registered by `initFunctions`. -/
def scalarReaders : List (Env → BTVM → NCall → Option (VMValuePtr × BTVM)) :=
  [vmReadInt, vmReadUInt, vmReadShort, vmReadUShort, vmReadInt64, vmReadUInt64,
   vmReadQuad, vmReadUQuad]

/-! ## Traversals used to state the entry builder's properties -/

mutual
/-- The entries of a tree, every child before its parent, children left to right. -/
def BTEntry.postorder : BTEntry → List BTEntry
  | .mk i v e l p c => postorderList c ++ [BTEntry.mk i v e l p c]
/-- The entries of a forest, tree after tree. -/
def postorderList : List BTEntry → List BTEntry
  | [] => []
  | e :: rest => e.postorder ++ postorderList rest
end

/-- The struct value `P { uchar x; uchar y; }` read at `offset` from the bytes `x`, `y`. -/
def structP (offset x y : Nat) : VMValue :=
  .mk .Struct (some (.NStruct "P")) offset 0 []
    [.mk .u8 (some (.NType "uchar")) offset x [] [],
     .mk .u8 (some (.NType "uchar")) (offset + 1) y [] []]

/-- The value of `struct P { uchar x; uchar y; } p[3];` read from `01 02 03 04 05 06`. -/
def arrayP3 : VMValue :=
  .mk .Array (some (.NStruct "P")) 0 0 [] [structP 0 1 2, structP 2 3 4, structP 4 5 6]

/-- The facts about the entries `l` created from the state `s`: each carries the
endianness of the stream of `s`, a fresh address, children that point back to
it, and no address occurs twice. -/
def EntriesFrom (s : BTVM) (l : List BTEntry) : Prop :=
  (∀ x ∈ l, x.endianness = s._btvmio.endianness ∧
            s.nextEntry ≤ x.id ∧ x.id < s.nextEntry + l.length ∧
            (∀ c ∈ x.children, c.parent = some x.id)) ∧
  (l.map BTEntry.id).Nodup


/-! ## Lemmas on the palette -/

theorem lookup_of_mem_nodup (m : ColorMap) (k : String) (v : Nat)
    (hnd : (m.map Prod.fst).Nodup) (hmem : (k, v) ∈ m) : m.lookup k = some v := by
  induction m with
  | nil => simp at hmem
  | cons p rest ih =>
    obtain ⟨k0, v0⟩ := p
    simp only [List.map_cons, List.nodup_cons] at hnd
    rcases List.mem_cons.mp hmem with h | h
    · cases h
      simp [List.lookup]
    · have hne : k ≠ k0 := by
        intro hk
        apply hnd.1
        rw [← hk]
        exact List.mem_map_of_mem Prod.fst h
      have hb : (k == k0) = false := by simpa using hne
      simp only [List.lookup, hb]
      exact ih hnd.2 h

theorem lookup_of_not_mem (m : ColorMap) (k : String)
    (hk : k ∉ m.map Prod.fst) : m.lookup k = none := by
  induction m with
  | nil => rfl
  | cons p rest ih =>
    obtain ⟨k0, v0⟩ := p
    simp only [List.map_cons, List.mem_cons, not_or] at hk
    have hb : (k == k0) = false := by simpa using hk.1
    simp only [List.lookup, hb]
    exact ih hk.2

/-- C6: on a constructed interpreter, `color(name)` returns the palette value
when `name` is a palette name and the `Invalid` sentinel otherwise; the palette
built by `initColors` has exactly 25 distinct names, among them
`cBlack = 0x00000000`, `cRed = 0x000000FF`, `cWhite = 0x00FFFFFF` and
`cNone = 0xFFFFFFFF`; lookup is exact and case-sensitive: a name outside the
table (such as `cred`, `CRED`, `cBlack ` or the empty name) finds no palette
entry and yields the sentinel. -/
theorem color_palette (env : Env) (io : BTVMIO) (name : String) :
    ((BTVM.new env io)._colors.map Prod.fst).length = 25 ∧
    ((BTVM.new env io)._colors.map Prod.fst).Nodup ∧
    (∀ v, (name, v) ∈ (BTVM.new env io)._colors → (BTVM.new env io).color env name = v) ∧
    (name ∉ (BTVM.new env io)._colors.map Prod.fst →
      (BTVM.new env io)._colors.lookup name = none ∧
      (BTVM.new env io).color env name = env.ColorInvalid) ∧
    (BTVM.new env io).color env "cBlack" = 0x00000000 ∧
    (BTVM.new env io).color env "cRed" = 0x000000FF ∧
    (BTVM.new env io).color env "cWhite" = 0x00FFFFFF ∧
    (BTVM.new env io).color env "cNone" = 0xFFFFFFFF ∧
    (BTVM.new env io).color env "cred" = env.ColorInvalid ∧
    (BTVM.new env io).color env "CRED" = env.ColorInvalid ∧
    (BTVM.new env io).color env "cBlack " = env.ColorInvalid ∧
    (BTVM.new env io).color env "" = env.ColorInvalid := by
  have hlen : ((initColors []).map Prod.fst).length = 25 := by decide
  have hnd : ((initColors []).map Prod.fst).Nodup := by decide
  refine ⟨hlen, hnd, ?_, ?_, ?_, ?_, ?_, ?_, ?_, ?_, ?_, ?_⟩
  · intro v hv
    have h := lookup_of_mem_nodup (initColors []) name v hnd hv
    simp only [BTVM.color, BTVM.new, h]
  · intro hk
    have h := lookup_of_not_mem (initColors []) name hk
    exact ⟨h, by simp only [BTVM.color, BTVM.new, h]⟩
  all_goals
    have h : ∀ k, (BTVM.new env io).color env k =
        match (initColors []).lookup k with
        | none => env.ColorInvalid
        | some v => v := fun _ => rfl
    rw [h]
    rfl

/-- Witness for C6 at the name `cGreen` (in the table, value `0x0000FF00`) on the
concrete interpreter over an empty stream. -/
theorem color_palette_witness :
    (vmOver []).color specEnv "cGreen" = 0x0000FF00 ∧
    (vmOver []).color specEnv "cgreen" = 0xFFFFFFFF :=
  ⟨(color_palette specEnv _ "cGreen").2.2.1 0x0000FF00 (by decide),
   ((color_palette specEnv ⟨[], 0, .LittleEndian, false⟩ "cgreen").2.2.2.1 (by decide)).2⟩


/-! ## Color selection -/

/-- C7: `SetForeColor` (resp. `SetBackColor`) called with exactly one argument
that is an identifier node sets the current foreground (resp. background) color
to `color(name)`; the result is the input state with that single member
replaced, whatever the evaluator is, so the argument is not evaluated and the
other color, the stream cursor and the endianness are unchanged. With an
argument count other than 1 the call fails with an argument error, with a
single non-identifier argument it fails with a type error; in both failures
the interpreter is in `Error` and both current colors are unchanged. -/
theorem setColor_spec (env : Env) (self : BTVM) (ncall : NCall) :
    (∀ name, ncall.arguments = [Node.NIdentifier name] →
      vmSetForeColor env self ncall
        = some (none, { self with _fgcolor := self.color env name }) ∧
      vmSetBackColor env self ncall
        = some (none, { self with _bgcolor := self.color env name }) ∧
      (∀ r, vmSetForeColor env self ncall = some r →
        r.2.currentFgColor = self.color env name ∧ r.2.currentBgColor = self.currentBgColor ∧
        r.2.currentOffset = self.currentOffset ∧
        r.2._btvmio.endianness = self._btvmio.endianness ∧ r.2.state = self.state) ∧
      (∀ r, vmSetBackColor env self ncall = some r →
        r.2.currentBgColor = self.color env name ∧ r.2.currentFgColor = self.currentFgColor ∧
        r.2.currentOffset = self.currentOffset ∧
        r.2._btvmio.endianness = self._btvmio.endianness ∧ r.2.state = self.state)) ∧
    (ncall.arguments.length ≠ 1 →
      vmSetForeColor env self ncall = some (self.argumentError ncall 1) ∧
      vmSetBackColor env self ncall = some (self.argumentError ncall 1) ∧
      (self.argumentError ncall 1).1 = none ∧
      (self.argumentError ncall 1).2.state = VMState.Error ∧
      (self.argumentError ncall 1).2.errors
        = self.errors ++ [VMError.argument ncall.name ncall.arguments.length 1] ∧
      (self.argumentError ncall 1).2.currentFgColor = self.currentFgColor ∧
      (self.argumentError ncall 1).2.currentBgColor = self.currentBgColor) ∧
    (∀ arg, ncall.arguments = [arg] → arg.isNIdentifier = false →
      vmSetForeColor env self ncall = some (self.typeError "NIdentifier") ∧
      vmSetBackColor env self ncall = some (self.typeError "NIdentifier") ∧
      (self.typeError "NIdentifier").1 = none ∧
      (self.typeError "NIdentifier").2.state = VMState.Error ∧
      (self.typeError "NIdentifier").2.errors = self.errors ++ [VMError.type "NIdentifier"] ∧
      (self.typeError "NIdentifier").2.currentFgColor = self.currentFgColor ∧
      (self.typeError "NIdentifier").2.currentBgColor = self.currentBgColor) := by
  refine ⟨?_, ?_, ?_⟩
  · intro name harg
    have hf : vmSetForeColor env self ncall
        = some (none, { self with _fgcolor := self.color env name }) := by
      simp [vmSetForeColor, harg, Node.isNIdentifier, Node.asNIdentifier]
    have hb : vmSetBackColor env self ncall
        = some (none, { self with _bgcolor := self.color env name }) := by
      simp [vmSetBackColor, harg, Node.isNIdentifier, Node.asNIdentifier]
    refine ⟨hf, hb, ?_, ?_⟩
    · intro r hr
      rw [hf] at hr
      cases hr
      simp [BTVM.currentFgColor, BTVM.currentBgColor, BTVM.currentOffset]
    · intro r hr
      rw [hb] at hr
      cases hr
      simp [BTVM.currentFgColor, BTVM.currentBgColor, BTVM.currentOffset]
  · intro hlen
    simp [vmSetForeColor, vmSetBackColor, hlen, BTVM.argumentError,
      BTVM.currentFgColor, BTVM.currentBgColor]
  · intro arg harg hid
    simp [vmSetForeColor, vmSetBackColor, harg, hid, BTVM.typeError,
      BTVM.currentFgColor, BTVM.currentBgColor]

/-- Witness for C7: `SetForeColor(cRed)` on a fresh interpreter, `SetBackColor()`
with no argument, and `SetForeColor(3)` with a literal argument. -/
theorem setColor_spec_witness :
    vmSetForeColor specEnv (vmOver [1, 2]) ⟨"SetForeColor", [Node.NIdentifier "cRed"]⟩
      = some (none, { vmOver [1, 2] with _fgcolor := (vmOver [1, 2]).color specEnv "cRed" }) ∧
    vmSetBackColor specEnv (vmOver [1, 2]) ⟨"SetBackColor", []⟩
      = some ((vmOver [1, 2]).argumentError ⟨"SetBackColor", []⟩ 1) ∧
    vmSetForeColor specEnv (vmOver [1, 2]) ⟨"SetForeColor", [Node.NInteger 3]⟩
      = some ((vmOver [1, 2]).typeError "NIdentifier") :=
  ⟨((setColor_spec specEnv (vmOver [1, 2]) ⟨"SetForeColor", [Node.NIdentifier "cRed"]⟩).1
      "cRed" rfl).1,
   ((setColor_spec specEnv (vmOver [1, 2]) ⟨"SetBackColor", []⟩).2.1 (by decide)).2.1,
   ((setColor_spec specEnv (vmOver [1, 2]) ⟨"SetForeColor", [Node.NInteger 3]⟩).2.2
      (Node.NInteger 3) rfl rfl).1⟩

/-! ## Printf and Warning -/

/-- C8: evaluation of the code at a call without arguments. `vmPrintf` performs
no argument-count check: its first statement takes `arguments.front()` of the
empty vector, which is undefined (`none`); no argument error is raised. The
same holds for `vmWarning`, which delegates to it. With one argument the
handler evaluates it and prints. -/
theorem vmPrintf_no_arguments (env : Env) (self : BTVM) (name : String) :
    vmPrintf env self ⟨name, []⟩ = none ∧
    vmWarning env self ⟨name, []⟩ = none ∧
    vmPrintf env self ⟨name, []⟩ ≠ some (self.argumentError ⟨name, []⟩ 1) ∧
    (∀ arg, vmPrintf env self ⟨name, [arg]⟩
      = some (none, (env.interpret arg self).2.print
                      (env.format_string (env.interpret arg self).1 []))) := by
  refine ⟨rfl, rfl, ?_, ?_⟩
  · simp [vmPrintf]
  · intro arg
    simp [vmPrintf]

/-! ## ReadString -/

/-- C5: evaluation of the code at `ReadString(pos, maxlen)` with two integer
literals: the call fails with the type error "scalar" raised on `maxlen`,
yields a null value and reads no string, while the one-argument call
`ReadString(pos)` succeeds. In general, whenever the second argument evaluates
to a scalar the handler answers with that type error. -/
theorem vmReadString_scalar_maxlen (bytes : List Nat) (pos maxlen : Int) :
    vmReadString specEnv (vmOver bytes) ⟨"ReadString", [Node.NInteger pos, Node.NInteger maxlen]⟩
      = some ((vmOver bytes).typeError "scalar") ∧
    ((vmOver bytes).typeError "scalar").1 = none ∧
    ((vmOver bytes).typeError "scalar").2.state = VMState.Error ∧
    (vmReadString specEnv (vmOver [65, 66, 67, 0, 5, 6, 7, 8])
        ⟨"ReadString", [Node.NInteger 0, Node.NInteger 2]⟩).map
        (fun r => (r.1.map VMValue.s_value, r.2.state, r.2.errors))
      = some (none, VMState.Error, [VMError.type "scalar"]) ∧
    (vmReadString specEnv (vmOver [65, 66, 67, 0, 5, 6, 7, 8])
        ⟨"ReadString", [Node.NInteger 0]⟩).map
        (fun r => (r.1.map VMValue.s_value, r.2.state, r.2._btvmio.offset))
      = some (some [65, 66, 67], VMState.NoState, 0) ∧
    (∀ (env : Env) (self : BTVM) (a0 a1 : Node) (vmpos vmmaxlen : VMValue) (s1 s2 : BTVM),
      env.interpret a0 self = (some vmpos, s1) → vmpos.is_scalar = true →
      env.interpret a1 s1 = (some vmmaxlen, s2) → vmmaxlen.is_scalar = true →
      vmReadString env self ⟨"ReadString", [a0, a1]⟩ = some (s2.typeError "scalar")) := by
  refine ⟨?_, rfl, rfl, by decide, by decide, ?_⟩
  · simp [vmReadString, specEnv, specInterpret, VMValue.allocate_literal, VMValue.is_scalar,
      VMValue.value_type]
  · intro env self a0 a1 vmpos vmmaxlen s1 s2 h0 hs0 h1 hs1
    simp [vmReadString, h0, hs0, h1, hs1]


/-! ## FSeek -/

theorem seek_offset_of_le (io : BTVMIO) (pos : Nat) (h : pos ≤ io.size) :
    (io.seek pos).offset = pos ∧ (io.seek pos).data = io.data ∧
    (io.seek pos).endian = io.endian ∧ (io.seek pos).eofFlag = io.eofFlag := by
  have hn : ¬ pos > io.size := Nat.not_lt.mpr h
  simp [ BTVMIO.seek, BTVMIO.offset, hn]

/-- C1: `FSeek(pos)` with `pos` evaluating to a scalar `v`, read as an unsigned
64-bit number `p`. With `s1` the state in which the argument's evaluation ends:
when `p >= size()` the call returns the literal -1 and the state `s1` itself
(cursor unchanged); otherwise it returns the literal 0 and the state `s1` with
the stream sought to `p`, whose cursor is exactly `p`, its bytes, endianness
and eof flag being those of `s1`. On any 8-byte stream, at any cursor position,
`FSeek(100)` and `FSeek(10000000)` both return -1 with the interpreter state
(thus the cursor) unchanged. -/
theorem vmFSeek_spec (env : Env) (self s1 : BTVM) (name : String) (arg : Node) (v : VMValue)
    (hev : env.interpret arg self = (some v, s1)) (hsc : v.is_scalar = true) :
    (s1._btvmio.size ≤ v.value_ref_u64 →
      vmFSeek env self ⟨name, [arg]⟩ = some (some (VMValue.allocate_literal (-1)), s1)) ∧
    (v.value_ref_u64 < s1._btvmio.size →
      vmFSeek env self ⟨name, [arg]⟩
        = some (some (VMValue.allocate_literal 0),
                { s1 with _btvmio := s1._btvmio.seek v.value_ref_u64 }) ∧
      (s1._btvmio.seek v.value_ref_u64).offset = v.value_ref_u64 ∧
      (s1._btvmio.seek v.value_ref_u64).data = s1._btvmio.data ∧
      (s1._btvmio.seek v.value_ref_u64).endian = s1._btvmio.endian ∧
      (s1._btvmio.seek v.value_ref_u64).eofFlag = s1._btvmio.eofFlag) ∧
    (VMValue.allocate_literal (-1)).toInt64 = -1 ∧
    (VMValue.allocate_literal 0).toInt64 = 0 ∧
    (∀ (io : BTVMIO) (pos : Int), io.size = 8 → (pos = 100 ∨ pos = 10000000) →
      vmFSeek specEnv (BTVM.new specEnv io) ⟨"FSeek", [Node.NInteger pos]⟩
        = some (some (VMValue.allocate_literal (-1)), BTVM.new specEnv io)) := by
  refine ⟨?_, ?_, by decide, by decide, ?_⟩
  · intro hge
    simp [vmFSeek, hev, hsc, hge]
  · intro hlt
    have hn : ¬ s1._btvmio.size ≤ v.value_ref_u64 := Nat.not_le.mpr hlt
    refine ⟨?_, seek_offset_of_le _ _ (Nat.le_of_lt hlt)⟩
    simp [vmFSeek, hev, hsc, hn]
  · intro io pos hsize hpos
    rcases hpos with h | h <;> subst h <;>
      simp [vmFSeek, specEnv, specInterpret, VMValue.is_scalar, VMValue.value_type,
        VMValue.allocate_literal, VMValue.value_ref_u64, VMValue.ui_value, BTVM.new, hsize]

/-- Witness for C1: `FSeek(100)` and `FSeek(5)` on the 8-byte stream `01 .. 08`. -/
theorem vmFSeek_spec_witness :
    vmFSeek specEnv (vmOver [1, 2, 3, 4, 5, 6, 7, 8]) ⟨"FSeek", [Node.NInteger 100]⟩
      = some (some (VMValue.allocate_literal (-1)), vmOver [1, 2, 3, 4, 5, 6, 7, 8]) ∧
    vmFSeek specEnv (vmOver [1, 2, 3, 4, 5, 6, 7, 8]) ⟨"FSeek", [Node.NInteger 5]⟩
      = some (some (VMValue.allocate_literal 0),
              { vmOver [1, 2, 3, 4, 5, 6, 7, 8] with
                _btvmio := (vmOver [1, 2, 3, 4, 5, 6, 7, 8])._btvmio.seek 5 }) ∧
    ((vmOver [1, 2, 3, 4, 5, 6, 7, 8])._btvmio.seek 5).offset = 5 :=
  ⟨(vmFSeek_spec specEnv (vmOver [1, 2, 3, 4, 5, 6, 7, 8]) (vmOver [1, 2, 3, 4, 5, 6, 7, 8])
      "FSeek" (Node.NInteger 100) (VMValue.allocate_literal 100) rfl rfl).1 (by decide),
   ((vmFSeek_spec specEnv (vmOver [1, 2, 3, 4, 5, 6, 7, 8]) (vmOver [1, 2, 3, 4, 5, 6, 7, 8])
      "FSeek" (Node.NInteger 5) (VMValue.allocate_literal 5) rfl rfl).2.1 (by decide)).1,
   ((vmFSeek_spec specEnv (vmOver [1, 2, 3, 4, 5, 6, 7, 8]) (vmOver [1, 2, 3, 4, 5, 6, 7, 8])
      "FSeek" (Node.NInteger 5) (VMValue.allocate_literal 5) rfl rfl).2.1 (by decide)).2.1⟩

/-! ## Scalar reads -/

/-- The guard puts the cursor back: whatever `body` returns, the cursor after
`IO_NoSeek` is the cursor before it. -/
theorem IO_NoSeek_offset (self : BTVM) (body : BTVM → Option (VMValuePtr × BTVM))
    (r : VMValuePtr × BTVM) (h : IO_NoSeek self body = some r) :
    r.2._btvmio.offset = self._btvmio.offset := by
  unfold IO_NoSeek at h
  simp only [Option.map_eq_some'] at h
  obtain ⟨a, _, ha⟩ := h
  rw [← ha]
  rfl

theorem readScalar_offset (env : Env) (self : BTVM) (ncall : NCall) (bits : Nat)
    (issigned : Bool) (hlen : ncall.arguments.length ≤ 1) (r : VMValuePtr × BTVM)
    (h : readScalar env self ncall bits issigned = some r) :
    r.2._btvmio.offset = self._btvmio.offset := by
  unfold readScalar at h
  have hn : ¬ ncall.arguments.length > 1 := Nat.not_lt.mpr hlen
  rw [if_neg hn] at h
  exact IO_NoSeek_offset _ _ _ h

theorem readScalar_nil (env : Env) (self : BTVM) (name : String) (bits : Nat) (issigned : Bool) :
    readScalar env self ⟨name, []⟩ bits issigned
      = some (some (env.read (VMValue.allocate bits issigned)
                      (env.sizeOf (VMValue.allocate bits issigned)) self._btvmio).1,
              { self with _btvmio :=
                  ((env.read (VMValue.allocate bits issigned)
                    (env.sizeOf (VMValue.allocate bits issigned)) self._btvmio).2.restore
                    self._btvmio.offset) }) := by
  simp [readScalar, IO_NoSeek, readScalarValue]

theorem readScalar_scalar (env : Env) (self s1 : BTVM) (name : String) (arg : Node)
    (pos : VMValue) (bits : Nat) (issigned : Bool)
    (hev : env.interpret arg self = (some pos, s1)) (hsc : pos.is_scalar = true) :
    readScalar env self ⟨name, [arg]⟩ bits issigned
      = some (some (env.read (VMValue.allocate bits issigned)
                      (env.sizeOf (VMValue.allocate bits issigned))
                      (s1._btvmio.seek pos.ui_value)).1,
              { s1 with _btvmio :=
                  ((env.read (VMValue.allocate bits issigned)
                    (env.sizeOf (VMValue.allocate bits issigned))
                    (s1._btvmio.seek pos.ui_value)).2.restore self._btvmio.offset) }) := by
  simp [readScalar, IO_NoSeek, readScalarValue, hev, hsc]

theorem readScalar_not_scalar (env : Env) (self s1 : BTVM) (name : String) (arg : Node)
    (pos : VMValue) (bits : Nat) (issigned : Bool)
    (hev : env.interpret arg self = (some pos, s1)) (hsc : pos.is_scalar = false) :
    readScalar env self ⟨name, [arg]⟩ bits issigned
      = some (none, { (s1.typeError "scalar").2 with _btvmio :=
                        ((s1.typeError "scalar").2._btvmio.restore self._btvmio.offset) }) := by
  simp [readScalar, IO_NoSeek, hev, hsc, BTVM.typeError]


theorem scalarReaders_readScalar (f : Env → BTVM → NCall → Option (VMValuePtr × BTVM))
    (hf : f ∈ scalarReaders) :
    ∃ bits issigned, ∀ env self ncall, f env self ncall = readScalar env self ncall bits issigned := by
  simp only [scalarReaders, List.mem_cons, List.mem_singleton, List.not_mem_nil, or_false] at hf
  rcases hf with h | h | h | h | h | h | h | h <;> subst h
  · exact ⟨32, true, fun _ _ _ => rfl⟩
  · exact ⟨32, false, fun _ _ _ => rfl⟩
  · exact ⟨16, true, fun _ _ _ => rfl⟩
  · exact ⟨16, false, fun _ _ _ => rfl⟩
  · exact ⟨64, true, fun _ _ _ => rfl⟩
  · exact ⟨64, false, fun _ _ _ => rfl⟩
  · exact ⟨64, true, fun _ _ _ => rfl⟩
  · exact ⟨64, false, fun _ _ _ => rfl⟩

/-- C2: for each of `ReadInt`, `ReadUInt`, `ReadShort`, `ReadUShort`,
`ReadInt64`, `ReadUInt64`, `ReadQuad`, `ReadUQuad` called with zero or one
argument, the stream cursor after the call equals the cursor before the call.
With no argument the call completes with a value read at the current offset;
with one argument evaluating to a scalar it completes with a value read at that
position; with one argument evaluating to a non-scalar it completes with a
null value, the interpreter in `Error` with the type error "scalar" recorded;
in every one of these cases, and for every evaluator and every stream `read`
(even when the argument's evaluation itself moves the cursor), the cursor is
the one before the call. -/
theorem readScalar_cursor_restored (env : Env) (self : BTVM) (ncall : NCall)
    (f : Env → BTVM → NCall → Option (VMValuePtr × BTVM)) (hf : f ∈ scalarReaders)
    (hlen : ncall.arguments.length ≤ 1) :
    (∀ r, f env self ncall = some r → r.2._btvmio.offset = self._btvmio.offset) ∧
    (ncall.arguments = [] →
      ∃ v s', f env self ncall = some (some v, s') ∧
        s'._btvmio.offset = self._btvmio.offset ∧ s'.state = self.state) ∧
    (∀ arg pos s1, ncall.arguments = [arg] → env.interpret arg self = (some pos, s1) →
      pos.is_scalar = true →
      ∃ v s', f env self ncall = some (some v, s') ∧
        s'._btvmio.offset = self._btvmio.offset ∧ s'.state = s1.state) ∧
    (∀ arg pos s1, ncall.arguments = [arg] → env.interpret arg self = (some pos, s1) →
      pos.is_scalar = false →
      ∃ s', f env self ncall = some (none, s') ∧
        s'._btvmio.offset = self._btvmio.offset ∧ s'.state = VMState.Error ∧
        s'.errors = s1.errors ++ [VMError.type "scalar"]) := by
  obtain ⟨bits, issigned, hfe⟩ := scalarReaders_readScalar f hf
  obtain ⟨name, args⟩ := ncall
  rw [hfe]
  refine ⟨?_, ?_, ?_, ?_⟩
  · intro r hr
    exact readScalar_offset env self _ bits issigned hlen r hr
  · intro hnil
    simp only at hnil
    subst hnil
    exact ⟨_, _, readScalar_nil env self name bits issigned, rfl, rfl⟩
  · intro arg pos s1 hargs hev hsc
    simp only at hargs
    subst hargs
    exact ⟨_, _, readScalar_scalar env self s1 name arg pos bits issigned hev hsc, rfl, rfl⟩
  · intro arg pos s1 hargs hev hsc
    simp only at hargs
    subst hargs
    exact ⟨_, readScalar_not_scalar env self s1 name arg pos bits issigned hev hsc, rfl, rfl, rfl⟩

/-- Witness for C2: on the stream `01 .. 08` with the cursor moved to 2,
`ReadInt(4)` reads the little-endian word at offset 4, `ReadUShort()` reads at
the cursor, `ReadInt64("x")` fails with a type error; the cursor stays at 2. -/
theorem readScalar_cursor_restored_witness :
    (∀ r, vmReadInt specEnv
        { vmOver [1, 2, 3, 4, 5, 6, 7, 8] with
          _btvmio := (vmOver [1, 2, 3, 4, 5, 6, 7, 8])._btvmio.seek 2 }
        ⟨"ReadInt", [Node.NInteger 4]⟩ = some r → r.2._btvmio.offset = 2) ∧
    (vmReadInt specEnv
        { vmOver [1, 2, 3, 4, 5, 6, 7, 8] with
          _btvmio := (vmOver [1, 2, 3, 4, 5, 6, 7, 8])._btvmio.seek 2 }
        ⟨"ReadInt", [Node.NInteger 4]⟩).map
        (fun r => (r.1.map VMValue.ui_value, r.2._btvmio.offset, r.2.state))
      = some (some 0x08070605, 2, VMState.NoState) ∧
    (vmReadUShort specEnv
        { vmOver [1, 2, 3, 4, 5, 6, 7, 8] with
          _btvmio := (vmOver [1, 2, 3, 4, 5, 6, 7, 8])._btvmio.seek 2 }
        ⟨"ReadUShort", []⟩).map
        (fun r => (r.1.map VMValue.ui_value, r.2._btvmio.offset, r.2.state))
      = some (some 0x0403, 2, VMState.NoState) ∧
    (vmReadInt64 specEnv
        { vmOver [1, 2, 3, 4, 5, 6, 7, 8] with
          _btvmio := (vmOver [1, 2, 3, 4, 5, 6, 7, 8])._btvmio.seek 2 }
        ⟨"ReadInt64", [Node.NString "x"]⟩).map
        (fun r => (r.1.map VMValue.ui_value, r.2._btvmio.offset, r.2.state))
      = some (none, 2, VMState.Error) :=
  ⟨(readScalar_cursor_restored specEnv
      { vmOver [1, 2, 3, 4, 5, 6, 7, 8] with
        _btvmio := (vmOver [1, 2, 3, 4, 5, 6, 7, 8])._btvmio.seek 2 }
      ⟨"ReadInt", [Node.NInteger 4]⟩ vmReadInt (by simp [scalarReaders]) (by decide)).1,
   by decide, by decide, by decide⟩


/-! ## The entry builder -/

theorem createEntry_fields (env : Env) (v : VMValue) (p : Option Nat) (s : BTVM) :
    (createEntry env v p s).1.id = s.nextEntry ∧
    (createEntry env v p s).1.value = v ∧
    (createEntry env v p s).1.endianness = s._btvmio.endianness ∧
    (createEntry env v p s).1.location = ⟨v.value_offset, env.sizeOf v⟩ ∧
    (createEntry env v p s).1.parent = p ∧
    (createEntry env v p s).1.children =
      if v.is_array || node_is_NStruct v.value_typedef then
        (createChildren env v.m_value (some s.nextEntry)
          { s with nextEntry := s.nextEntry + 1 }).1
      else [] := by
  cases v with
  | mk t d o u b m =>
    simp only [createEntry]
    split <;> simp_all [BTEntry.id, BTEntry.value, BTEntry.endianness, BTEntry.location,
      BTEntry.parent, BTEntry.children, VMValue.m_value]

theorem postorder_eq (e : BTEntry) : e.postorder = postorderList e.children ++ [e] := by
  cases e
  simp [BTEntry.postorder, BTEntry.children]

theorem createEntry_snd (env : Env) (v : VMValue) (p : Option Nat) (s : BTVM) :
    (createEntry env v p s).2 =
      (if v.is_array || node_is_NStruct v.value_typedef then
        (createChildren env v.m_value (some s.nextEntry)
          { s with nextEntry := s.nextEntry + 1 }).2
       else { s with nextEntry := s.nextEntry + 1 }).entryCreated (createEntry env v p s).1 := by
  cases v with
  | mk t d o u b m =>
    simp only [createEntry]
    split <;> simp_all [VMValue.m_value]

theorem createChildren_cons (env : Env) (v : VMValue) (rest : List VMValue) (p : Option Nat)
    (s : BTVM) :
    createChildren env (v :: rest) p s =
      ((createEntry env v p s).1 :: (createChildren env rest p (createEntry env v p s).2).1,
       (createChildren env rest p (createEntry env v p s).2).2) := by
  simp only [createChildren]

mutual
theorem createEntry_state (env : Env) : ∀ (v : VMValue) (p : Option Nat) (s : BTVM),
    (createEntry env v p s).2 =
      { s with nextEntry := s.nextEntry + (createEntry env v p s).1.postorder.length,
               created := s.created ++ (createEntry env v p s).1.postorder }
  | .mk t d o u b m, p, s => by
    have hc := createChildren_state env m (some s.nextEntry) { s with nextEntry := s.nextEntry + 1 }
    have hf := createEntry_fields env (.mk t d o u b m) p s
    rw [createEntry_snd, postorder_eq, hf.2.2.2.2.2]
    simp only [VMValue.m_value]
    split
    · rw [hc]
      simp [BTVM.entryCreated, postorderList]
      omega
    · simp [BTVM.entryCreated, postorderList]
theorem createChildren_state (env : Env) : ∀ (vs : List VMValue) (p : Option Nat) (s : BTVM),
    (createChildren env vs p s).2 =
      { s with nextEntry := s.nextEntry + (postorderList (createChildren env vs p s).1).length,
               created := s.created ++ postorderList (createChildren env vs p s).1 }
  | [], p, s => by simp [createChildren, postorderList]
  | v :: rest, p, s => by
    have h1 := createEntry_state env v p s
    have h2 := createChildren_state env rest p (createEntry env v p s).2
    rw [createChildren_cons]
    simp only [postorderList]
    rw [h2]
    rw [h1]
    simp
    omega
end


theorem createChildren_roots (env : Env) (vs : List VMValue) (p : Option Nat) (s : BTVM) :
    (createChildren env vs p s).1.map BTEntry.value = vs ∧
    (createChildren env vs p s).1.length = vs.length ∧
    (∀ e ∈ (createChildren env vs p s).1, e.parent = p) ∧
    List.Forall₂ (fun v e => ∃ s0 : BTVM, e = (createEntry env v p s0).1) vs
      (createChildren env vs p s).1 := by
  induction vs generalizing s with
  | nil => simp [createChildren]
  | cons v rest ih =>
    rw [createChildren_cons]
    have hf := createEntry_fields env v p s
    obtain ⟨h1, h2, h3, h4⟩ := ih (createEntry env v p s).2
    refine ⟨?_, ?_, ?_, ?_⟩
    · simp [h1, hf.2.1]
    · simp [h2]
    · intro e he
      rcases List.mem_cons.mp he with h | h
      · rw [h]; exact hf.2.2.2.2.1
      · exact h3 e h
    · exact List.Forall₂.cons ⟨s, rfl⟩ h4

theorem EntriesFrom.append (s s' : BTVM) (l l' : List BTEntry)
    (h : EntriesFrom s l) (h' : EntriesFrom s' l')
    (hio : s'._btvmio = s._btvmio) (hn : s'.nextEntry = s.nextEntry + l.length) :
    EntriesFrom s (l ++ l') := by
  obtain ⟨ha, hnd⟩ := h
  obtain ⟨ha', hnd'⟩ := h'
  refine ⟨?_, ?_⟩
  · intro x hx
    rcases List.mem_append.mp hx with hx | hx
    · obtain ⟨e1, e2, e3, e4⟩ := ha x hx
      refine ⟨e1, e2, ?_, e4⟩
      rw [List.length_append]; omega
    · obtain ⟨e1, e2, e3, e4⟩ := ha' x hx
      refine ⟨by rw [e1, hio], by omega, ?_, e4⟩
      rw [List.length_append]; omega
  · rw [List.map_append]
    refine List.Nodup.append hnd hnd' ?_
    intro i hi hi'
    obtain ⟨x, hx, rfl⟩ := List.mem_map.mp hi
    obtain ⟨y, hy, hxy⟩ := List.mem_map.mp hi'
    have := (ha x hx).2.2.1
    have := (ha' y hy).2.1
    omega

mutual
theorem createEntry_entries (env : Env) : ∀ (v : VMValue) (p : Option Nat) (s : BTVM),
    EntriesFrom s (createEntry env v p s).1.postorder
  | .mk t d o u b m, p, s => by
    have hc := createChildren_entries env m (some s.nextEntry)
      { s with nextEntry := s.nextEntry + 1 }
    have hr := createChildren_roots env m (some s.nextEntry)
      { s with nextEntry := s.nextEntry + 1 }
    have hf := createEntry_fields env (.mk t d o u b m) p s
    rw [postorder_eq, hf.2.2.2.2.2]
    have hself : ∀ c ∈ (createEntry env (.mk t d o u b m) p s).1.children,
        c.parent = some (createEntry env (.mk t d o u b m) p s).1.id := by
      rw [hf.2.2.2.2.2, hf.1]
      split
      · exact hr.2.2.1
      · simp
    simp only [VMValue.m_value]
    split
    · obtain ⟨ha, hnd⟩ := hc
      refine ⟨?_, ?_⟩
      · intro x hx
        rcases List.mem_append.mp hx with hx | hx
        · obtain ⟨e1, e2, e3, e4⟩ := ha x hx
          simp only [List.length_append, List.length_singleton]
          exact ⟨e1, by simp only at e2; omega, by simp only at e3; omega, e4⟩
        · rw [List.mem_singleton.mp hx]
          refine ⟨hf.2.2.1, by rw [hf.1], ?_, hself⟩
          rw [hf.1]; simp
      · rw [List.map_append, List.map_singleton, hf.1]
        refine List.Nodup.append hnd (List.nodup_singleton _) ?_
        intro i hi hi'
        obtain ⟨x, hx, rfl⟩ := List.mem_map.mp hi
        have h2 := (ha x hx).2.1
        simp only at h2
        have := List.mem_singleton.mp hi'
        omega
    · refine ⟨?_, ?_⟩
      · intro x hx
        simp only [postorderList, List.nil_append, List.mem_singleton] at hx
        rw [hx]
        refine ⟨hf.2.2.1, by rw [hf.1], ?_, hself⟩
        rw [hf.1]; simp [postorderList]
      · simp [postorderList]
theorem createChildren_entries (env : Env) : ∀ (vs : List VMValue) (p : Option Nat) (s : BTVM),
    EntriesFrom s (postorderList (createChildren env vs p s).1)
  | [], p, s => by simp [createChildren, postorderList, EntriesFrom]
  | v :: rest, p, s => by
    have h1 := createEntry_entries env v p s
    have h2 := createChildren_entries env rest p (createEntry env v p s).2
    have hs := createEntry_state env v p s
    rw [createChildren_cons]
    simp only [postorderList]
    refine EntriesFrom.append s _ _ _ h1 h2 ?_ ?_
    · rw [hs]
    · rw [hs]
end


theorem mem_postorder_self (e : BTEntry) : e ∈ e.postorder := by
  rw [postorder_eq]; simp

theorem mem_postorderList_of_mem (es : List BTEntry) (e : BTEntry) (h : e ∈ es) :
    e ∈ postorderList es := by
  induction es with
  | nil => simp at h
  | cons a rest ih =>
    simp only [postorderList, List.mem_append]
    rcases List.mem_cons.mp h with h | h
    · left; rw [h]; exact mem_postorder_self a
    · right; exact ih h

mutual
theorem postorder_child_before : ∀ (e x c : BTEntry), x ∈ e.postorder → c ∈ x.children →
    [c, x].Sublist e.postorder
  | .mk i v en l p ch, x, c, hx, hc => by
    simp only [BTEntry.postorder] at hx ⊢
    rcases List.mem_append.mp hx with hx | hx
    · exact (postorderList_child_before ch x c hx hc).trans (List.sublist_append_left _ _)
    · have hxe := List.mem_singleton.mp hx
      subst hxe
      have hmem : c ∈ postorderList ch := mem_postorderList_of_mem ch c hc
      exact List.Sublist.append (List.singleton_sublist.mpr hmem) (List.Sublist.refl _)
theorem postorderList_child_before : ∀ (es : List BTEntry) (x c : BTEntry),
    x ∈ postorderList es → c ∈ x.children → [c, x].Sublist (postorderList es)
  | [], x, c, hx, _ => by simp [postorderList] at hx
  | e :: rest, x, c, hx, hc => by
    simp only [postorderList] at hx ⊢
    rcases List.mem_append.mp hx with hx | hx
    · exact (postorder_child_before e x c hx hc).trans (List.sublist_append_left _ _)
    · exact (postorderList_child_before rest x c hx hc).trans (List.sublist_append_right _ _)
end

/-- C9: `createEntry(v, parent)` returns an entry whose location is
`(v.value_offset, sizeOf(v))`, whose parent is the given parent and which is
built from `v`. If `v` is an array or struct-typed, the entry has exactly one
child per element of `v`'s child sequence, in the same order, each the result
of `createEntry` on that element with this entry as its parent; otherwise it
has no children. The `entryCreated` hook log grows by exactly the entries of
the resulting tree, each with an address of its own (so each once), and every
child is reported before its parent. For the value of
`struct P { uchar x; uchar y; } p[3];` the root spans `(0, 6)` and has three
children of size 2, each of which has two children. -/
theorem createEntry_spec (env : Env) (v : VMValue) (parent : Option Nat) (s : BTVM) :
    (createEntry env v parent s).1.location = ⟨v.value_offset, env.sizeOf v⟩ ∧
    (createEntry env v parent s).1.parent = parent ∧
    (createEntry env v parent s).1.value = v ∧
    ((v.is_array || node_is_NStruct v.value_typedef) = true →
      (createEntry env v parent s).1.children.length = v.m_value.length ∧
      (createEntry env v parent s).1.children.map BTEntry.value = v.m_value ∧
      (∀ c ∈ (createEntry env v parent s).1.children,
        c.parent = some (createEntry env v parent s).1.id) ∧
      List.Forall₂
        (fun vc c => ∃ s0 : BTVM,
          c = (createEntry env vc (some (createEntry env v parent s).1.id) s0).1)
        v.m_value (createEntry env v parent s).1.children) ∧
    ((v.is_array || node_is_NStruct v.value_typedef) = false →
      (createEntry env v parent s).1.children = []) ∧
    (createEntry env v parent s).2.created
      = s.created ++ (createEntry env v parent s).1.postorder ∧
    ((createEntry env v parent s).1.postorder.map BTEntry.id).Nodup ∧
    (∀ x ∈ (createEntry env v parent s).1.postorder, ∀ c ∈ x.children,
      c.parent = some x.id ∧ [c, x].Sublist (createEntry env v parent s).1.postorder) ∧
    ((createEntry specEnv arrayP3 none (vmOver [1, 2, 3, 4, 5, 6])).1.location = ⟨0, 6⟩ ∧
     (createEntry specEnv arrayP3 none (vmOver [1, 2, 3, 4, 5, 6])).1.children.map
        (fun c => (c.location, c.children.length, c.children.map BTEntry.location))
       = [(⟨0, 2⟩, 2, [⟨0, 1⟩, ⟨1, 1⟩]), (⟨2, 2⟩, 2, [⟨2, 1⟩, ⟨3, 1⟩]),
          (⟨4, 2⟩, 2, [⟨4, 1⟩, ⟨5, 1⟩])] ∧
     (createEntry specEnv arrayP3 none (vmOver [1, 2, 3, 4, 5, 6])).2.created.map BTEntry.id
       = [2, 3, 1, 5, 6, 4, 8, 9, 7, 0]) := by
  have hf := createEntry_fields env v parent s
  have hst := createEntry_state env v parent s
  have hen := createEntry_entries env v parent s
  refine ⟨hf.2.2.2.1, hf.2.2.2.2.1, hf.2.1, ?_, ?_, ?_, hen.2, ?_, ?_⟩
  · intro hcomp
    have hr := createChildren_roots env v.m_value (some s.nextEntry)
      { s with nextEntry := s.nextEntry + 1 }
    rw [hf.2.2.2.2.2, if_pos hcomp, hf.1]
    exact ⟨hr.2.1, hr.1, hr.2.2.1, hr.2.2.2⟩
  · intro hcomp
    rw [hf.2.2.2.2.2, hcomp]
    rfl
  · rw [hst]
  · intro x hx c hc
    exact ⟨(hen.1 x hx).2.2.2 c hc, postorder_child_before _ x c hx hc⟩
  · refine ⟨?_, ?_, ?_⟩
    · simp [createEntry_fields, arrayP3, structP, specEnv, specSizeOf, specSizeSum,
        VMValue.value_offset]
    · simp [createEntry, createChildren, arrayP3, structP, specEnv, specSizeOf, specSizeSum,
        VMValue.value_offset, VMValue.is_array, VMValue.value_type, VMValue.value_typedef,
        node_is_NStruct, BTEntry.children, BTEntry.location]
    · simp [createEntry, createChildren, arrayP3, structP, VMValue.is_array,
        VMValue.value_type, VMValue.value_typedef, node_is_NStruct, BTVM.entryCreated, vmOver,
        BTVM.new, BTEntry.id]

/-- Witness for C9 on the struct value `P` read at offset 2 with parent address 7:
two children, both pointing back to the new entry. -/
theorem createEntry_spec_witness :
    (createEntry specEnv (structP 2 3 4) (some 7) (vmOver [1, 2, 3, 4, 5, 6])).1.children.length
      = 2 ∧
    (∀ c ∈ (createEntry specEnv (structP 2 3 4) (some 7) (vmOver [1, 2, 3, 4, 5, 6])).1.children,
      c.parent = some (createEntry specEnv (structP 2 3 4) (some 7)
        (vmOver [1, 2, 3, 4, 5, 6])).1.id) ∧
    (createEntry specEnv (VMValue.allocate_literal 5) none (vmOver [])).1.children = [] :=
  ⟨((createEntry_spec specEnv (structP 2 3 4) (some 7) (vmOver [1, 2, 3, 4, 5, 6])).2.2.2.1
      (by decide)).1,
   ((createEntry_spec specEnv (structP 2 3 4) (some 7) (vmOver [1, 2, 3, 4, 5, 6])).2.2.2.1
      (by decide)).2.2.1,
   (createEntry_spec specEnv (VMValue.allocate_literal 5) none (vmOver [])).2.2.2.2.1
      (by decide)⟩


/-! ## The template -/

/-- C3: when `createTemplate` is called in the `Error` state, whatever the
ledger holds, it returns the empty forest and leaves the ledger empty; no entry
is created: the `entryCreated` hook log and the entry allocator are untouched,
and the interpreter stays in `Error`. -/
theorem createTemplate_error (env : Env) (self : BTVM) (h : self.state = VMState.Error) :
    createTemplate env self = ([], { self with allocations := [] }) ∧
    (createTemplate env self).1 = [] ∧
    (createTemplate env self).2.allocations = [] ∧
    (createTemplate env self).2.created = self.created ∧
    (createTemplate env self).2.nextEntry = self.nextEntry ∧
    (createTemplate env self).2.state = VMState.Error := by
  have he : createTemplate env self = ([], { self with allocations := [] }) := by
    simp [createTemplate, h]
  rw [he]
  exact ⟨rfl, rfl, rfl, rfl, rfl, h⟩

/-- Witness for C3: an interpreter in `Error` whose ledger holds two values. -/
theorem createTemplate_error_witness :
    (createTemplate specEnv
      { vmOver [1, 2, 3, 4, 5, 6] with state := VMState.Error,
                                       allocations := [arrayP3, structP 0 1 2] }).1 = [] ∧
    (createTemplate specEnv
      { vmOver [1, 2, 3, 4, 5, 6] with state := VMState.Error,
                                       allocations := [arrayP3, structP 0 1 2] }).2.allocations
      = [] ∧
    (createTemplate specEnv
      { vmOver [1, 2, 3, 4, 5, 6] with state := VMState.Error,
                                       allocations := [arrayP3, structP 0 1 2] }).2.created
      = [] :=
  ⟨(createTemplate_error specEnv
      { vmOver [1, 2, 3, 4, 5, 6] with state := VMState.Error,
                                       allocations := [arrayP3, structP 0 1 2] } rfl).2.1,
   (createTemplate_error specEnv
      { vmOver [1, 2, 3, 4, 5, 6] with state := VMState.Error,
                                       allocations := [arrayP3, structP 0 1 2] } rfl).2.2.1,
   (createTemplate_error specEnv
      { vmOver [1, 2, 3, 4, 5, 6] with state := VMState.Error,
                                       allocations := [arrayP3, structP 0 1 2] } rfl).2.2.2.1⟩

theorem createChildren_located (env : Env) (vs : List VMValue) (p : Option Nat) (s : BTVM) :
    List.Forall₂
      (fun v e => e.value = v ∧ e.location = ⟨v.value_offset, env.sizeOf v⟩ ∧ e.parent = p ∧
        ∃ s0 : BTVM, e = (createEntry env v p s0).1)
      vs (createChildren env vs p s).1 := by
  induction vs generalizing s with
  | nil => simp [createChildren]
  | cons v rest ih =>
    rw [createChildren_cons]
    have hf := createEntry_fields env v p s
    exact List.Forall₂.cons ⟨hf.2.1, hf.2.2.2.1, hf.2.2.2.2.1, s, rfl⟩ (ih _)

/-- C4: when `createTemplate` is called in state `NoState`, the returned forest
has exactly one root per ledger value; the i-th root is the entry that
`createEntry` builds from the i-th ledger value with a NULL parent (it holds
that value and spans `(value_offset, sizeOf)` of it), so declaration order is
preserved; every root has no parent; the ledger and the interpreter state are
left unchanged. -/
theorem createTemplate_roots (env : Env) (self : BTVM) (h : self.state = VMState.NoState) :
    (createTemplate env self).1.length = self.allocations.length ∧
    (createTemplate env self).1.map BTEntry.value = self.allocations ∧
    List.Forall₂
      (fun v e => e.value = v ∧ e.location = ⟨v.value_offset, env.sizeOf v⟩ ∧ e.parent = none ∧
        ∃ s0 : BTVM, e = (createEntry env v none s0).1)
      self.allocations (createTemplate env self).1 ∧
    (∀ e ∈ (createTemplate env self).1, e.parent = none) ∧
    (createTemplate env self).2.allocations = self.allocations ∧
    (createTemplate env self).2.state = VMState.NoState := by
  have he : createTemplate env self = createChildren env self.allocations none self := by
    simp [createTemplate, h]
  have hr := createChildren_roots env self.allocations none self
  have hs := createChildren_state env self.allocations none self
  rw [he]
  refine ⟨hr.2.1, hr.1, createChildren_located env _ none self, hr.2.2.1, ?_, ?_⟩
  · rw [hs]
  · rw [hs]; exact h

/-- Witness for C4: a ledger of two values after a run without error. -/
theorem createTemplate_roots_witness :
    (createTemplate specEnv
      { vmOver [1, 2, 3, 4, 5, 6] with allocations := [structP 0 1 2, structP 2 3 4] }).1.map
        BTEntry.value = [structP 0 1 2, structP 2 3 4] ∧
    (createTemplate specEnv
      { vmOver [1, 2, 3, 4, 5, 6] with allocations := [structP 0 1 2, structP 2 3 4] }).2.allocations
      = [structP 0 1 2, structP 2 3 4] :=
  ⟨(createTemplate_roots specEnv
      { vmOver [1, 2, 3, 4, 5, 6] with allocations := [structP 0 1 2, structP 2 3 4] } rfl).2.1,
   (createTemplate_roots specEnv
      { vmOver [1, 2, 3, 4, 5, 6] with allocations := [structP 0 1 2, structP 2 3 4] }
      rfl).2.2.2.2.1⟩

/-- C10: `createEntry` records in the entry it builds the stream's endianness at
the moment of the call, and neither `createEntry` nor `createTemplate` changes
the stream reader; hence every entry of the tree returned by `createEntry`, and
every entry (root or descendant) of the forest returned by `createTemplate`,
carries the stream's endianness at the time of the call. -/
theorem createTemplate_endianness (env : Env) (self : BTVM) :
    (∀ v p, (createEntry env v p self).1.endianness = self._btvmio.endianness) ∧
    (∀ v p, (createEntry env v p self).2._btvmio = self._btvmio) ∧
    (∀ v p, ∀ x ∈ (createEntry env v p self).1.postorder,
      x.endianness = self._btvmio.endianness) ∧
    (createTemplate env self).2._btvmio = self._btvmio ∧
    (∀ e ∈ (createTemplate env self).1, e ∈ postorderList (createTemplate env self).1) ∧
    (∀ x ∈ postorderList (createTemplate env self).1,
      x.endianness = self._btvmio.endianness) := by
  refine ⟨?_, ?_, ?_, ?_, ?_, ?_⟩
  · intro v p
    exact (createEntry_fields env v p self).2.2.1
  · intro v p
    rw [createEntry_state]
  · intro v p x hx
    exact ((createEntry_entries env v p self).1 x hx).1
  · unfold createTemplate
    split
    · rw [createChildren_state]
    · rfl
  · intro e he
    exact mem_postorderList_of_mem _ e he
  · unfold createTemplate
    split
    · intro x hx
      exact ((createChildren_entries env self.allocations none self).1 x hx).1
    · intro x hx
      simp [postorderList] at hx

end BTVMModel
